import Mathlib

/-!
Shallow embedding of the record-store core of the University Management
System (`src/UMS.cpp`): the CSV record codecs of the eight entity kinds,
the per-entity load routines of `DatabaseManager`, the identifier
allocator `generateNextId`, the enrollment lookup `isStudentEnrolled`,
the grade-entry upsert of `UMSApplication::enterGrades`, and the
admin-protected `UMSApplication::deleteUser`.

Modelling conventions:
* C++ `std::string` is `String`; `substr`/`length` act on `String.data`
  (the source only ever handles single-byte characters).
* C++ `int` is `Int`; where the source can overflow or throw, the model
  makes it explicit (`Option`/`Except Unit`, `.error ()` standing for a
  C++ exception escaping the function).
* `std::to_string` on integers is `intToStr` below (plain decimal,
  `-` sign for negatives), and `std::stoi` is `stoiOpt` (skip leading
  whitespace, optional sign, longest digit prefix, failure when there is
  no digit or the value leaves the 32-bit `int` range — both
  `std::invalid_argument` and `std::out_of_range` are modelled as
  `none`).
* the `while (std::getline(ss, token, ','))` field splitter is
  `tokenize`: it yields every comma-separated field except that a final
  empty field (a line ending in `,`) is not yielded, because `getline`
  fails at end-of-stream before producing it.
-/

/-- Decimal digits of `n`, least significant first, via repeated
division by 10 exactly as a decimal printer produces them.  The first
argument is structural fuel; `fuel > n` is always sufficient. -/
def natDigitsRevAux : Nat → Nat → List Char
  | 0, _ => []
  | fuel + 1, n =>
    if n < 10 then [Nat.digitChar n]
    else Nat.digitChar (n % 10) :: natDigitsRevAux fuel (n / 10)

def natDigitsRev (n : Nat) : List Char := natDigitsRevAux (n + 1) n

/-- Model of `std::to_string` on a non-negative value. -/
def natToStr (n : Nat) : String := ⟨(natDigitsRev n).reverse⟩

/-- Model of `std::to_string(int)`. -/
def intToStr (m : Int) : String :=
  if m < 0 then "-" ++ natToStr m.natAbs else natToStr m.toNat

/-- Accumulating base-10 digit evaluation, as `strtol` performs it. -/
def parseDigits (acc : Nat) (ds : List Char) : Nat :=
  ds.foldl (fun a c => a * 10 + (c.toNat - 48)) acc

/-- Model of `std::stoi` in base 10: `none` when the C++ call throws
(`std::invalid_argument` for no digits, `std::out_of_range` outside the
32-bit `int` range). -/
def stoiOpt (s : String) : Option Int :=
  let cs := s.data.dropWhile Char.isWhitespace
  let sign : Int := if cs.head? = some '-' then -1 else 1
  let cs2 := if cs.head? = some '-' ∨ cs.head? = some '+' then cs.tail else cs
  let ds := cs2.takeWhile Char.isDigit
  if ds = [] then none
  else
    let v : Int := sign * (parseDigits 0 ds : Nat)
    if v < -(2 ^ 31) ∨ (2 ^ 31 : Int) - 1 < v then none else some v

/-- All comma-separated chunks of a character list: `n` commas yield
`n + 1` chunks, empty chunks included. -/
def splitAll : List Char → List (List Char)
  | [] => [[]]
  | c :: cs =>
    if c = ',' then [] :: splitAll cs
    else
      match splitAll cs with
      | [] => [[c]]
      | t :: ts => (c :: t) :: ts

/-- The token list produced by `while (std::getline(ss, token, ','))`:
every chunk of `splitAll`, except that a final empty chunk is dropped
(`getline` fails at end-of-stream before yielding it). -/
def tokenizeL (s : List Char) : List (List Char) :=
  let ts := splitAll s
  if ts.getLast? = some [] then ts.dropLast else ts

def tokenize (s : String) : List String := (tokenizeL s.data).map List.asString

/-- A string free of the delimiter character. -/
def commaFree (s : String) : Prop := ',' ∉ s.data

instance (s : String) : Decidable (commaFree s) := by
  unfold commaFree; infer_instance

theorem tokenize_comma : tokenize "a,b" = ["a", "b"] := by decide

theorem tokenize_trailing : tokenize "a,b," = ["a", "b"] := by decide

theorem stoiOpt_abc : stoiOpt "abc" = none := by decide

theorem stoiOpt_neg : stoiOpt "-42" = some (-42) := by decide

theorem intToStr_example : intToStr 1000 = "1000" := by decide

/-! ## Record types (`UMS.cpp` classes) and their CSV codecs -/

deriving instance DecidableEq for Except

structure Department where
  deptId : String
  deptName : String
  headOfDept : String
  description : String
deriving DecidableEq

/-- `Department()` — default construction; C++ leaves `std::string`
fields empty. -/
def Department.empty : Department := ⟨"", "", "", ""⟩

def Department.toCSV (d : Department) : String :=
  d.deptId ++ "," ++ d.deptName ++ "," ++ d.headOfDept ++ "," ++ d.description

def Department.fromCSV (s : String) : Department :=
  let ts := tokenize s
  if 4 ≤ ts.length then
    { deptId := ts.getD 0 "", deptName := ts.getD 1 "",
      headOfDept := ts.getD 2 "", description := ts.getD 3 "" }
  else Department.empty

structure Semester where
  semesterId : String
  semesterName : String
  startDate : String
  endDate : String
  status : String
deriving DecidableEq

def Semester.empty : Semester := ⟨"", "", "", "", ""⟩

def Semester.toCSV (x : Semester) : String :=
  x.semesterId ++ "," ++ x.semesterName ++ "," ++ x.startDate ++ "," ++
    x.endDate ++ "," ++ x.status

def Semester.fromCSV (s : String) : Semester :=
  let ts := tokenize s
  if 5 ≤ ts.length then
    { semesterId := ts.getD 0 "", semesterName := ts.getD 1 "",
      startDate := ts.getD 2 "", endDate := ts.getD 3 "",
      status := ts.getD 4 "" }
  else Semester.empty

structure Course where
  courseId : String
  courseName : String
  teacherId : String
  departmentId : String
  semesterId : String
  credits : Int
  schedule : String
  maxStudents : Int
deriving DecidableEq

/-- `Course()` — C++ default construction leaves the two `int` fields
indeterminate; the model fixes them at 0 (no claim depends on them). -/
def Course.empty : Course := ⟨"", "", "", "", "", 0, "", 0⟩

def Course.toCSV (c : Course) : String :=
  c.courseId ++ "," ++ c.courseName ++ "," ++ c.teacherId ++ "," ++
    c.departmentId ++ "," ++ c.semesterId ++ "," ++ intToStr c.credits ++ "," ++
    c.schedule ++ "," ++ intToStr c.maxStudents

/-- `Course::fromCSV`: `std::stoi` runs on fields 5 and 7 with no
handler, so a failed parse is an exception escaping the function
(`.error ()`). -/
def Course.fromCSV (s : String) : Except Unit Course :=
  let ts := tokenize s
  if 8 ≤ ts.length then
    match stoiOpt (ts.getD 5 "") with
    | none => .error ()
    | some cr =>
      match stoiOpt (ts.getD 7 "") with
      | none => .error ()
      | some mx =>
        .ok { courseId := ts.getD 0 "", courseName := ts.getD 1 "",
              teacherId := ts.getD 2 "", departmentId := ts.getD 3 "",
              semesterId := ts.getD 4 "", credits := cr,
              schedule := ts.getD 6 "", maxStudents := mx }
  else .ok Course.empty

structure Exam where
  examId : String
  courseId : String
  examName : String
  examDate : String
  examTime : String
  examType : String
  totalMarks : Int
deriving DecidableEq

/-- `Exam()` — the `int` field is indeterminate in C++; fixed at 0. -/
def Exam.empty : Exam := ⟨"", "", "", "", "", "", 0⟩

def Exam.toCSV (e : Exam) : String :=
  e.examId ++ "," ++ e.courseId ++ "," ++ e.examName ++ "," ++ e.examDate ++ "," ++
    e.examTime ++ "," ++ e.examType ++ "," ++ intToStr e.totalMarks

def Exam.fromCSV (s : String) : Except Unit Exam :=
  let ts := tokenize s
  if 7 ≤ ts.length then
    match stoiOpt (ts.getD 6 "") with
    | none => .error ()
    | some tm =>
      .ok { examId := ts.getD 0 "", courseId := ts.getD 1 "",
            examName := ts.getD 2 "", examDate := ts.getD 3 "",
            examTime := ts.getD 4 "", examType := ts.getD 5 "",
            totalMarks := tm }
  else .ok Exam.empty

structure Grade where
  studentId : String
  examId : String
  marksObtained : Int
  letterGrade : String
  comments : String
deriving DecidableEq

/-- `Grade()` — the `int` field is indeterminate in C++; fixed at 0. -/
def Grade.empty : Grade := ⟨"", "", 0, "", ""⟩

def Grade.toCSV (g : Grade) : String :=
  g.studentId ++ "," ++ g.examId ++ "," ++ intToStr g.marksObtained ++ "," ++
    g.letterGrade ++ "," ++ g.comments

def Grade.fromCSV (s : String) : Except Unit Grade :=
  let ts := tokenize s
  if 5 ≤ ts.length then
    match stoiOpt (ts.getD 2 "") with
    | none => .error ()
    | some m =>
      .ok { studentId := ts.getD 0 "", examId := ts.getD 1 "",
            marksObtained := m, letterGrade := ts.getD 3 "",
            comments := ts.getD 4 "" }
  else .ok Grade.empty

structure User where
  id : String
  username : String
  passwordHash : String
  role : String
  name : String
  email : String
  phone : String
  address : String
  departmentId : String
  dateJoined : String
deriving DecidableEq

def User.empty : User := ⟨"", "", "", "", "", "", "", "", "", ""⟩

def User.toCSV (u : User) : String :=
  u.id ++ "," ++ u.username ++ "," ++ u.passwordHash ++ "," ++ u.role ++ "," ++
    u.name ++ "," ++ u.email ++ "," ++ u.phone ++ "," ++ u.address ++ "," ++
    u.departmentId ++ "," ++ u.dateJoined

def User.fromCSV (s : String) : User :=
  let ts := tokenize s
  if 10 ≤ ts.length then
    { id := ts.getD 0 "", username := ts.getD 1 "",
      passwordHash := ts.getD 2 "", role := ts.getD 3 "",
      name := ts.getD 4 "", email := ts.getD 5 "", phone := ts.getD 6 "",
      address := ts.getD 7 "", departmentId := ts.getD 8 "",
      dateJoined := ts.getD 9 "" }
  else User.empty

/-- `SimpleHash::hash`: appends the fixed salt and applies
`std::hash<std::string>` (implementation-defined, modelled by the
parameter `h`) followed by `std::to_string`. -/
def SimpleHash.hash (h : String → String) (input : String) : String :=
  h (input ++ "UMS_SALT_2025")

/-- The full `User` constructor: hashes the password and stamps
`dateJoined` from `std::time(0)` (the parameter `now`). -/
def User.make (h : String → String) (now : Nat)
    (id username password role name email phone address deptId : String) :
    User :=
  { id := id, username := username,
    passwordHash := SimpleHash.hash h password, role := role, name := name,
    email := email, phone := phone, address := address,
    departmentId := deptId, dateJoined := natToStr now }

structure Enrollment where
  studentId : String
  courseId : String
  grade : String
  status : String
deriving DecidableEq

def Enrollment.empty : Enrollment := ⟨"", "", "", ""⟩

def Enrollment.toCSV (e : Enrollment) : String :=
  e.studentId ++ "," ++ e.courseId ++ "," ++ e.grade ++ "," ++ e.status

def Enrollment.fromCSV (s : String) : Enrollment :=
  let ts := tokenize s
  if 4 ≤ ts.length then
    { studentId := ts.getD 0 "", courseId := ts.getD 1 "",
      grade := ts.getD 2 "", status := ts.getD 3 "" }
  else Enrollment.empty

structure Attendance where
  studentId : String
  courseId : String
  date : String
  status : String
deriving DecidableEq

def Attendance.empty : Attendance := ⟨"", "", "", ""⟩

def Attendance.toCSV (a : Attendance) : String :=
  a.studentId ++ "," ++ a.courseId ++ "," ++ a.date ++ "," ++ a.status

def Attendance.fromCSV (s : String) : Attendance :=
  let ts := tokenize s
  if 4 ≤ ts.length then
    { studentId := ts.getD 0 "", courseId := ts.getD 1 "",
      date := ts.getD 2 "", status := ts.getD 3 "" }
  else Attendance.empty

/-! ## `DatabaseManager`: per-entity load routines

Each `loadX` reads its backing file line by line and decodes every
non-empty line.  A missing or empty file is the empty line list.  For
the entity kinds whose decoder can throw (`Course`, `Exam`, `Grade`) the
load routine propagates the exception (`.error ()`): the C++ has no
handler anywhere on the path. -/

def loadDepartments : List String → List Department
  | [] => []
  | line :: rest =>
    if line = "" then loadDepartments rest
    else Department.fromCSV line :: loadDepartments rest

def loadSemesters : List String → List Semester
  | [] => []
  | line :: rest =>
    if line = "" then loadSemesters rest
    else Semester.fromCSV line :: loadSemesters rest

def loadCourses : List String → Except Unit (List Course)
  | [] => .ok []
  | line :: rest =>
    if line = "" then loadCourses rest
    else
      match Course.fromCSV line, loadCourses rest with
      | .ok c, .ok cs => .ok (c :: cs)
      | .error _, _ => .error ()
      | _, .error _ => .error ()

def loadExams : List String → Except Unit (List Exam)
  | [] => .ok []
  | line :: rest =>
    if line = "" then loadExams rest
    else
      match Exam.fromCSV line, loadExams rest with
      | .ok e, .ok es => .ok (e :: es)
      | .error _, _ => .error ()
      | _, .error _ => .error ()

def loadGrades : List String → Except Unit (List Grade)
  | [] => .ok []
  | line :: rest =>
    if line = "" then loadGrades rest
    else
      match Grade.fromCSV line, loadGrades rest with
      | .ok g, .ok gs => .ok (g :: gs)
      | .error _, _ => .error ()
      | _, .error _ => .error ()

def loadEnrollments : List String → List Enrollment
  | [] => []
  | line :: rest =>
    if line = "" then loadEnrollments rest
    else Enrollment.fromCSV line :: loadEnrollments rest

def loadAttendance : List String → List Attendance
  | [] => []
  | line :: rest =>
    if line = "" then loadAttendance rest
    else Attendance.fromCSV line :: loadAttendance rest

def parseUsers : List String → List User
  | [] => []
  | line :: rest =>
    if line = "" then parseUsers rest
    else User.fromCSV line :: parseUsers rest

/-- The default administrator synthesized by `loadUsers` when the file
produced no users:
`User("admin001", "admin", "admin123", "admin", "System Administrator", "admin@university.edu")`. -/
def defaultAdmin (h : String → String) (now : Nat) : User :=
  User.make h now "admin001" "admin" "admin123" "admin"
    "System Administrator" "admin@university.edu" "" "" ""

/-- `DatabaseManager::loadUsers`: decodes the file's non-empty lines;
if no user results, pushes the default admin and immediately calls
`saveUsers`.  The second component is the file content written by that
save (`none` when nothing is written). -/
def loadUsers (h : String → String) (now : Nat) (lines : List String) :
    List User × Option (List String) :=
  let us := parseUsers lines
  if us = [] then
    let admin := defaultAdmin h now
    ([admin], some [admin.toCSV])
  else (us, none)

/-- `DatabaseManager::isStudentEnrolled`. -/
def isStudentEnrolled (enrollments : List Enrollment)
    (studentId courseId : String) : Bool :=
  enrollments.any fun e =>
    e.studentId == studentId && e.courseId == courseId && e.status == "enrolled"

/-- `DatabaseManager::generateNextId`.  The scan is the C++ loop:
an id contributes when it strictly extends `pfx` and `std::stoi`
accepts its suffix (partial parses such as `"12x"` count as 12; a throw
is skipped by the `catch`).  The result is
`pfx + std::string(3 - to_string(maxNum+1).length(), '0') + to_string(maxNum+1)`;
when `to_string(maxNum+1)` has more than 3 characters, `3 - length` is
computed in `size_t` and underflows to `SIZE_MAX`, so the
`std::string(count, '0')` constructor throws `std::length_error` —
modelled as `none`. -/
def generateNextId (pfx : String) (existingIds : List String) : Option String :=
  let maxNum : Int := existingIds.foldl (fun m id =>
    if pfx.data.length < id.data.length ∧ id.data.take pfx.data.length = pfx.data then
      match stoiOpt ⟨id.data.drop pfx.data.length⟩ with
      | some num => max m num
      | none => m
    else m) 0
  let s := intToStr (maxNum + 1)
  if s.data.length ≤ 3 then
    some (pfx ++ ⟨List.replicate (3 - s.data.length) '0'⟩ ++ s)
  else none

/-! ## `UMSApplication` operations the claims are about -/

/-- The percentage-ladder letter grade computed inside
`UMSApplication::enterGrades`.  The C++ computes
`(double)marks / totalMarks * 100` in IEEE double; the model uses the
exact rational value.  For every pair of 32-bit `int` inputs the two
agree on each threshold comparison: the two correctly-rounded
operations perturb the exact percentage by less than `2e-13`, while a
percentage unequal to a threshold differs from it by at least
`100 / 2^31 > 4e-8`, and at each threshold `t ∈ {50,...,90}` with
`marks/totalMarks*100 = t` exactly, the value
`fl(100 * fl(t/100))` rounds back to exactly `t` (checked for all nine
thresholds), so the `>=` comparisons also agree there. -/
def letterGradeOf (marks totalMarks : Int) : String :=
  let percentage : ℚ := (marks : ℚ) / (totalMarks : ℚ) * 100
  if 90 ≤ percentage then "A+"
  else if 85 ≤ percentage then "A"
  else if 80 ≤ percentage then "A-"
  else if 75 ≤ percentage then "B+"
  else if 70 ≤ percentage then "B"
  else if 65 ≤ percentage then "B-"
  else if 60 ≤ percentage then "C+"
  else if 55 ≤ percentage then "C"
  else if 50 ≤ percentage then "C-"
  else "F"

/-- The grade upsert at the end of `UMSApplication::enterGrades`:
`find_if` locates the first record with the same `(studentId, examId)`
and overwrites its `marksObtained`, `letterGrade`, `comments`; when no
record matches, a fresh `Grade` is appended. -/
def enterGrade (grades : List Grade) (studentId examId : String)
    (marks : Int) (letter comments : String) : List Grade :=
  match grades with
  | [] => [⟨studentId, examId, marks, letter, comments⟩]
  | g :: gs =>
    if g.studentId = studentId ∧ g.examId = examId then
      { g with marksObtained := marks, letterGrade := letter,
               comments := comments } :: gs
    else g :: enterGrade gs studentId examId marks letter comments

/-- `UMSApplication::deleteUser`: `find_if` locates the first user with
the given id; an `"admin"` role refuses the deletion (collection
untouched), otherwise that one record is erased.  The boolean reports
whether a record was erased. -/
def deleteUser (users : List User) (id : String) : List User × Bool :=
  match users with
  | [] => ([], false)
  | u :: us =>
    if u.id = id then
      if u.role = "admin" then (u :: us, false) else (us, true)
    else
      (u :: (deleteUser us id).1, (deleteUser us id).2)

/-! ## Facts about the decimal printer and `std::stoi` model -/

/-- The ten decimal digit characters. -/
def decimalChars : List Char := ['0', '1', '2', '3', '4', '5', '6', '7', '8', '9']

theorem digitChar_mem (k : Nat) (h : k < 10) : Nat.digitChar k ∈ decimalChars := by
  interval_cases k <;> decide

theorem decimalChars_facts :
    ∀ c ∈ decimalChars, c.isDigit = true ∧ c.isWhitespace = false ∧
      c ≠ ',' ∧ c ≠ '-' ∧ c ≠ '+' := by decide

theorem digitChar_toNat (k : Nat) (h : k < 10) : (Nat.digitChar k).toNat - 48 = k := by
  interval_cases k <;> decide

theorem natDigitsRevAux_irrel :
    ∀ f₁ f₂ n, n < f₁ → n < f₂ → natDigitsRevAux f₁ n = natDigitsRevAux f₂ n := by
  intro f₁
  induction f₁ with
  | zero => intro f₂ n h; omega
  | succ g ih =>
    intro f₂ n h₁ h₂
    cases f₂ with
    | zero => omega
    | succ h =>
      show natDigitsRevAux (g + 1) n = natDigitsRevAux (h + 1) n
      unfold natDigitsRevAux
      by_cases hn : n < 10
      · simp [hn]
      · have hd : n / 10 < n := Nat.div_lt_self (by omega) (by omega)
        simp only [hn, if_false]
        rw [ih h (n / 10) (by omega) (by omega)]

theorem natDigitsRev_unfold (n : Nat) :
    natDigitsRev n =
      if n < 10 then [Nat.digitChar n]
      else Nat.digitChar (n % 10) :: natDigitsRev (n / 10) := by
  show natDigitsRevAux (n + 1) n = _
  unfold natDigitsRevAux
  by_cases hn : n < 10
  · simp [hn]
  · have hd : n / 10 < n := Nat.div_lt_self (by omega) (by omega)
    simp only [hn, if_false]
    rw [natDigitsRevAux_irrel n (n / 10 + 1) (n / 10) (by omega) (by omega)]
    rfl

theorem natDigitsRev_mem (n : Nat) : ∀ c ∈ natDigitsRev n, c ∈ decimalChars := by
  induction n using Nat.strong_induction_on with
  | _ n ih =>
    rw [natDigitsRev_unfold]
    by_cases hn : n < 10
    · simp only [hn, if_true, List.mem_singleton]
      rintro c rfl
      exact digitChar_mem n hn
    · have hd : n / 10 < n := Nat.div_lt_self (by omega) (by omega)
      simp only [hn, if_false, List.mem_cons]
      rintro c (rfl | hc)
      · exact digitChar_mem _ (Nat.mod_lt n (by omega))
      · exact ih (n / 10) hd c hc

theorem natDigitsRev_ne_nil (n : Nat) : natDigitsRev n ≠ [] := by
  rw [natDigitsRev_unfold]
  by_cases hn : n < 10 <;> simp [hn]

theorem natDigitsRev_lt (n : Nat) : n < 10 ^ (natDigitsRev n).length := by
  induction n using Nat.strong_induction_on with
  | _ n ih =>
    rw [natDigitsRev_unfold]
    by_cases hn : n < 10
    · simp [hn]
    · have hd : n / 10 < n := Nat.div_lt_self (by omega) (by omega)
      have h1 := ih (n / 10) hd
      simp only [hn, if_false, List.length_cons]
      have h2 : 10 ^ ((natDigitsRev (n / 10)).length + 1) =
          10 * 10 ^ (natDigitsRev (n / 10)).length := by ring
      omega

theorem natDigitsRev_ge (n : Nat) (h : 1 ≤ n) :
    10 ^ ((natDigitsRev n).length - 1) ≤ n := by
  induction n using Nat.strong_induction_on with
  | _ n ih =>
    rw [natDigitsRev_unfold]
    by_cases hn : n < 10
    · simpa [hn] using h
    · have hd : n / 10 < n := Nat.div_lt_self (by omega) (by omega)
      have hq : 1 ≤ n / 10 := by
        have := Nat.div_le_div_right (c := 10) (by omega : 10 ≤ n)
        simpa using this
      have h1 := ih (n / 10) hd hq
      have hlen : 1 ≤ (natDigitsRev (n / 10)).length :=
        List.length_pos.mpr (natDigitsRev_ne_nil _)
      simp only [hn, if_false, List.length_cons, Nat.add_sub_cancel]
      have h2 : 10 ^ (natDigitsRev (n / 10)).length =
          10 * 10 ^ ((natDigitsRev (n / 10)).length - 1) := by
        conv_lhs => rw [show (natDigitsRev (n / 10)).length =
          ((natDigitsRev (n / 10)).length - 1) + 1 by omega]
        ring
      have h3 : 10 * (n / 10) ≤ n := by
        have := Nat.div_mul_le_self n 10
        omega
      calc 10 ^ (natDigitsRev (n / 10)).length
          = 10 * 10 ^ ((natDigitsRev (n / 10)).length - 1) := h2
        _ ≤ 10 * (n / 10) := by omega
        _ ≤ n := h3

theorem parseDigits_append (acc : Nat) (l₁ l₂ : List Char) :
    parseDigits acc (l₁ ++ l₂) = parseDigits (parseDigits acc l₁) l₂ :=
  List.foldl_append _ _ _ _

theorem parseDigits_natDigitsRev (n : Nat) :
    ∀ acc, parseDigits acc ((natDigitsRev n).reverse) =
      acc * 10 ^ (natDigitsRev n).length + n := by
  induction n using Nat.strong_induction_on with
  | _ n ih =>
    intro acc
    rw [natDigitsRev_unfold]
    by_cases hn : n < 10
    · simp only [hn, if_true, List.reverse_singleton, List.length_singleton]
      show acc * 10 + ((Nat.digitChar n).toNat - 48) = acc * 10 ^ 1 + n
      rw [digitChar_toNat n hn]; ring
    · have hd : n / 10 < n := Nat.div_lt_self (by omega) (by omega)
      simp only [hn, if_false, List.reverse_cons, List.length_cons]
      rw [parseDigits_append, ih (n / 10) hd acc]
      show (acc * 10 ^ (natDigitsRev (n / 10)).length + n / 10) * 10 +
          ((Nat.digitChar (n % 10)).toNat - 48) = _
      rw [digitChar_toNat _ (Nat.mod_lt n (by omega))]
      have h3 : 10 * (n / 10) + n % 10 = n := Nat.div_add_mod n 10
      have h2 : 10 ^ ((natDigitsRev (n / 10)).length + 1) =
          10 ^ (natDigitsRev (n / 10)).length * 10 := by ring
      rw [h2]
      ring_nf
      omega

theorem parseDigits_zeros (acc k : Nat) :
    parseDigits acc (List.replicate k '0') = acc * 10 ^ k := by
  induction k generalizing acc with
  | zero => simp [parseDigits]
  | succ k ih =>
    rw [List.replicate_succ]
    show parseDigits (acc * 10 + ('0'.toNat - 48)) (List.replicate k '0') = _
    have h0 : '0'.toNat - 48 = 0 := rfl
    rw [h0, ih]
    ring

theorem dropWhile_of_forall_not {p : Char → Bool} :
    ∀ l : List Char, (∀ c ∈ l, p c = false) → l.dropWhile p = l := by
  intro l h
  cases l with
  | nil => rfl
  | cons c cs =>
    rw [List.dropWhile_cons]
    simp [h c (by simp)]

theorem takeWhile_of_forall {p : Char → Bool} :
    ∀ l : List Char, (∀ c ∈ l, p c = true) → l.takeWhile p = l := by
  intro l
  induction l with
  | nil => intro _; rfl
  | cons c cs ih =>
    intro h
    rw [List.takeWhile_cons]
    simp only [h c (by simp), if_true]
    rw [ih (fun x hx => h x (by simp [hx]))]

theorem str_eq_of_data {s t : String} (h : s.data = t.data) : s = t := by
  cases s; cases t; exact congrArg String.mk h

theorem stoiOpt_all_digits (c0 : Char) (l' : List Char)
    (hd : ∀ c ∈ c0 :: l', c ∈ decimalChars)
    (h : parseDigits 0 (c0 :: l') ≤ 2 ^ 31 - 1) :
    stoiOpt ⟨c0 :: l'⟩ = some ((parseDigits 0 (c0 :: l') : Nat) : Int) := by
  have hws : ∀ c ∈ c0 :: l', Char.isWhitespace c = false := fun c hc =>
    (decimalChars_facts c (hd c hc)).2.1
  have hdig : ∀ c ∈ c0 :: l', Char.isDigit c = true := fun c hc =>
    (decimalChars_facts c (hd c hc)).1
  have hc0 := decimalChars_facts c0 (hd c0 (by simp))
  simp only [stoiOpt, show (String.mk (c0 :: l')).data = c0 :: l' from rfl,
    dropWhile_of_forall_not _ hws, List.head?_cons,
    Option.some.injEq, hc0.2.2.2.1, hc0.2.2.2.2, or_self, if_false,
    takeWhile_of_forall _ hdig, List.cons_ne_nil, one_mul]
  split_ifs
  any_goals rfl
  all_goals omega

theorem stoiOpt_minus_digits (c0 : Char) (l' : List Char)
    (hd : ∀ c ∈ c0 :: l', c ∈ decimalChars)
    (h : parseDigits 0 (c0 :: l') ≤ 2 ^ 31) :
    stoiOpt ⟨'-' :: c0 :: l'⟩ = some (-((parseDigits 0 (c0 :: l') : Nat) : Int)) := by
  have hws : ∀ c ∈ '-' :: c0 :: l', Char.isWhitespace c = false := by
    intro c hc
    rcases List.mem_cons.mp hc with rfl | hc
    · decide
    · exact (decimalChars_facts c (hd c hc)).2.1
  have hdig : ∀ c ∈ c0 :: l', Char.isDigit c = true := fun c hc =>
    (decimalChars_facts c (hd c hc)).1
  simp only [stoiOpt, show (String.mk ('-' :: c0 :: l')).data = '-' :: c0 :: l' from rfl,
    dropWhile_of_forall_not _ hws, List.head?_cons, Option.some.injEq,
    if_true, or_false, true_or, if_pos, List.tail_cons,
    takeWhile_of_forall _ hdig, List.cons_ne_nil, neg_mul, one_mul]
  split_ifs
  any_goals rfl
  any_goals assumption
  all_goals omega

theorem stoiOpt_padded (k n : Nat) (h : n ≤ 2 ^ 31 - 1) :
    stoiOpt ⟨List.replicate k '0' ++ (natDigitsRev n).reverse⟩ = some (n : Int) := by
  have hparse : parseDigits 0 (List.replicate k '0' ++ (natDigitsRev n).reverse) = n := by
    rw [parseDigits_append, parseDigits_zeros, Nat.zero_mul,
      parseDigits_natDigitsRev, Nat.zero_mul, Nat.zero_add]
  have hmem : ∀ c ∈ List.replicate k '0' ++ (natDigitsRev n).reverse,
      c ∈ decimalChars := by
    intro c hc
    rcases List.mem_append.mp hc with h1 | h2
    · rw [List.eq_of_mem_replicate h1]; decide
    · exact natDigitsRev_mem n c (List.mem_reverse.mp h2)
  have hne : List.replicate k '0' ++ (natDigitsRev n).reverse ≠ [] := by
    simp [natDigitsRev_ne_nil]
  obtain ⟨c0, l', hl⟩ : ∃ c0 l',
      List.replicate k '0' ++ (natDigitsRev n).reverse = c0 :: l' := by
    cases hk : List.replicate k '0' ++ (natDigitsRev n).reverse with
    | nil => exact absurd hk hne
    | cons a b => exact ⟨a, b, rfl⟩
  rw [hl] at hparse hmem ⊢
  rw [stoiOpt_all_digits c0 l' hmem (by omega), hparse]

theorem stoiOpt_natToStr (n : Nat) (h : n ≤ 2 ^ 31 - 1) :
    stoiOpt (natToStr n) = some (n : Int) := by
  have := stoiOpt_padded 0 n h
  simpa [natToStr] using this

theorem stoiOpt_intToStr (m : Int) (h1 : -(2 ^ 31) ≤ m) (h2 : m ≤ 2 ^ 31 - 1) :
    stoiOpt (intToStr m) = some m := by
  unfold intToStr
  by_cases hm : m < 0
  · simp only [hm, if_true]
    have hdata : ("-" ++ natToStr m.natAbs).data =
        '-' :: (natDigitsRev m.natAbs).reverse := by
      rw [String.data_append]; rfl
    have hmem : ∀ c ∈ (natDigitsRev m.natAbs).reverse, c ∈ decimalChars :=
      fun c hc => natDigitsRev_mem _ c (List.mem_reverse.mp hc)
    obtain ⟨c0, l', hl⟩ : ∃ c0 l',
        (natDigitsRev m.natAbs).reverse = c0 :: l' := by
      cases hk : (natDigitsRev m.natAbs).reverse with
      | nil =>
        exact absurd (by simpa using congrArg List.reverse hk)
          (natDigitsRev_ne_nil m.natAbs)
      | cons a b => exact ⟨a, b, rfl⟩
    have hparse : parseDigits 0 (c0 :: l') = m.natAbs := by
      rw [← hl, parseDigits_natDigitsRev, Nat.zero_mul, Nat.zero_add]
    rw [str_eq_of_data (show ("-" ++ natToStr m.natAbs).data = '-' :: c0 :: l' by
      rw [hdata, hl])]
    rw [stoiOpt_minus_digits c0 l' (hl ▸ hmem) (by omega)]
    rw [hparse]
    congr 1
    omega
  · simp only [hm, if_false]
    rw [stoiOpt_natToStr m.toNat (by omega)]
    congr 1
    omega

theorem intToStr_mem (m : Int) :
    ∀ c ∈ (intToStr m).data, c = '-' ∨ c ∈ decimalChars := by
  intro c hc
  unfold intToStr at hc
  by_cases hm : m < 0
  · simp only [hm, if_true] at hc
    rw [String.data_append] at hc
    rcases List.mem_append.mp hc with h1 | h2
    · left; simpa using h1
    · right; exact natDigitsRev_mem _ c (List.mem_reverse.mp h2)
  · simp only [hm, if_false] at hc
    right; exact natDigitsRev_mem _ c (List.mem_reverse.mp hc)

theorem intToStr_commaFree (m : Int) : ',' ∉ (intToStr m).data := by
  intro hc
  rcases intToStr_mem m ',' hc with h | h
  · exact absurd h (by decide)
  · exact absurd h (by decide)

theorem intToStr_ne_nil (m : Int) : (intToStr m).data ≠ [] := by
  unfold intToStr
  by_cases hm : m < 0
  · simp [hm, String.data_append]
  · simpa [hm, natToStr] using natDigitsRev_ne_nil m.toNat

/-! ## Facts about the `getline` tokenizer -/

theorem splitAll_ne_nil : ∀ s : List Char, splitAll s ≠ [] := by
  intro s
  cases s with
  | nil => simp [splitAll]
  | cons c cs =>
    unfold splitAll
    by_cases hc : c = ','
    · simp [hc]
    · simp only [hc, if_false]
      cases splitAll cs <;> simp

theorem splitAll_commaFree (a : List Char) (ha : ',' ∉ a) : splitAll a = [a] := by
  induction a with
  | nil => rfl
  | cons c cs ih =>
    have hc : c ≠ ',' := fun h => ha (h ▸ List.mem_cons_self c cs)
    have hcs : ',' ∉ cs := fun h => ha (List.mem_cons_of_mem c h)
    unfold splitAll
    simp only [hc, if_false]
    rw [ih hcs]

theorem splitAll_append (a r : List Char) (ha : ',' ∉ a) :
    splitAll (a ++ ',' :: r) = a :: splitAll r := by
  induction a with
  | nil => simp [splitAll]
  | cons c cs ih =>
    have hc : c ≠ ',' := fun h => ha (h ▸ List.mem_cons_self c cs)
    have hcs : ',' ∉ cs := fun h => ha (List.mem_cons_of_mem c h)
    rw [List.cons_append]
    simp only [splitAll, hc, if_false, ih hcs]

theorem asString_data (s : String) : s.data.asString = s := rfl

theorem tokenizeL_append (a r : List Char) (ha : ',' ∉ a) :
    tokenizeL (a ++ ',' :: r) = a :: tokenizeL r := by
  simp only [tokenizeL]
  simp only [splitAll_append a r ha]
  cases h : splitAll r with
  | nil => exact absurd h (splitAll_ne_nil r)
  | cons t ts =>
    simp only [List.getLast?_cons_cons]
    by_cases hl : (t :: ts).getLast? = some []
    · rw [if_pos hl, if_pos hl, List.dropLast_cons_of_ne_nil (by simp)]
    · rw [if_neg hl, if_neg hl]

theorem tokenizeL_single (a : List Char) (ha : ',' ∉ a) (hne : a ≠ []) :
    tokenizeL a = [a] := by
  simp only [tokenizeL]
  simp only [splitAll_commaFree a ha]
  rw [if_neg (by simp [hne])]

theorem tokenize_append (a r : String) (ha : commaFree a) :
    tokenize (a ++ "," ++ r) = a :: tokenize r := by
  unfold tokenize
  have hd : (a ++ "," ++ r).data = a.data ++ ',' :: r.data := by
    rw [String.data_append, String.data_append]
    simp
  rw [hd, tokenizeL_append a.data r.data ha]
  simp only [List.map_cons, asString_data]

theorem tokenize_single (a : String) (ha : commaFree a) (hne : a ≠ "") :
    tokenize a = [a] := by
  unfold tokenize
  have hne2 : a.data ≠ [] := by
    intro h
    exact hne (str_eq_of_data (by rw [h]))
  rw [tokenizeL_single a.data ha hne2]
  simp only [List.map_cons, List.map_nil, asString_data]

theorem str_append_assoc (a b c : String) : a ++ b ++ c = a ++ (b ++ c) :=
  str_eq_of_data (by simp [String.data_append])

theorem tokenize_append2 (a r : String) (ha : commaFree a) :
    tokenize (a ++ ("," ++ r)) = a :: tokenize r := by
  rw [← str_append_assoc]
  exact tokenize_append a r ha

theorem intToStr_commaFree2 (m : Int) : commaFree (intToStr m) :=
  intToStr_commaFree m

theorem intToStr_ne_empty (m : Int) : intToStr m ≠ "" := by
  intro h
  exact intToStr_ne_nil m (by rw [h])

/-- The value range of a C++ 32-bit `int`; every `int` field of a live
C++ record satisfies it. -/
def intRange (m : Int) : Prop := -(2 ^ 31) ≤ m ∧ m ≤ 2 ^ 31 - 1

instance (m : Int) : Decidable (intRange m) := by
  unfold intRange; infer_instance

theorem grade_tokenize_toCSV (g : Grade) (h1 : commaFree g.studentId)
    (h2 : commaFree g.examId) (h4 : commaFree g.letterGrade)
    (h5 : commaFree g.comments) (hne : g.comments ≠ "") :
    tokenize g.toCSV =
      [g.studentId, g.examId, intToStr g.marksObtained, g.letterGrade, g.comments] := by
  unfold Grade.toCSV
  simp only [str_append_assoc]
  rw [tokenize_append2 _ _ h1, tokenize_append2 _ _ h2,
    tokenize_append2 _ _ (intToStr_commaFree2 _), tokenize_append2 _ _ h4,
    tokenize_single _ h5 hne]

theorem grade_roundTrip (g : Grade) (h1 : commaFree g.studentId)
    (h2 : commaFree g.examId) (h4 : commaFree g.letterGrade)
    (h5 : commaFree g.comments) (hne : g.comments ≠ "")
    (hm : intRange g.marksObtained) :
    Grade.fromCSV g.toCSV = .ok g := by
  unfold Grade.fromCSV
  rw [grade_tokenize_toCSV g h1 h2 h4 h5 hne]
  simp only [List.length_cons, List.getD]
  rw [if_pos (by omega)]
  simp only [List.get?, Option.getD_some]
  rw [stoiOpt_intToStr _ hm.1 hm.2]

theorem department_roundTrip (d : Department) (h1 : commaFree d.deptId)
    (h2 : commaFree d.deptName) (h3 : commaFree d.headOfDept)
    (h4 : commaFree d.description) (hne : d.description ≠ "") :
    Department.fromCSV d.toCSV = d := by
  unfold Department.fromCSV
  have ht : tokenize d.toCSV = [d.deptId, d.deptName, d.headOfDept, d.description] := by
    unfold Department.toCSV
    simp only [str_append_assoc]
    rw [tokenize_append2 _ _ h1, tokenize_append2 _ _ h2, tokenize_append2 _ _ h3,
      tokenize_single _ h4 hne]
  rw [ht]
  simp only [List.length_cons, List.getD]
  rw [if_pos (by omega)]
  simp only [List.get?, Option.getD_some]

theorem semester_roundTrip (x : Semester) (h1 : commaFree x.semesterId)
    (h2 : commaFree x.semesterName) (h3 : commaFree x.startDate)
    (h4 : commaFree x.endDate) (h5 : commaFree x.status) (hne : x.status ≠ "") :
    Semester.fromCSV x.toCSV = x := by
  unfold Semester.fromCSV
  have ht : tokenize x.toCSV =
      [x.semesterId, x.semesterName, x.startDate, x.endDate, x.status] := by
    unfold Semester.toCSV
    simp only [str_append_assoc]
    rw [tokenize_append2 _ _ h1, tokenize_append2 _ _ h2, tokenize_append2 _ _ h3,
      tokenize_append2 _ _ h4, tokenize_single _ h5 hne]
  rw [ht]
  simp only [List.length_cons, List.getD]
  rw [if_pos (by omega)]
  simp only [List.get?, Option.getD_some]

theorem course_roundTrip (c : Course) (h1 : commaFree c.courseId)
    (h2 : commaFree c.courseName) (h3 : commaFree c.teacherId)
    (h4 : commaFree c.departmentId) (h5 : commaFree c.semesterId)
    (h7 : commaFree c.schedule) (hcr : intRange c.credits)
    (hmx : intRange c.maxStudents) :
    Course.fromCSV c.toCSV = .ok c := by
  unfold Course.fromCSV
  have ht : tokenize c.toCSV =
      [c.courseId, c.courseName, c.teacherId, c.departmentId, c.semesterId,
        intToStr c.credits, c.schedule, intToStr c.maxStudents] := by
    unfold Course.toCSV
    simp only [str_append_assoc]
    rw [tokenize_append2 _ _ h1, tokenize_append2 _ _ h2, tokenize_append2 _ _ h3,
      tokenize_append2 _ _ h4, tokenize_append2 _ _ h5,
      tokenize_append2 _ _ (intToStr_commaFree2 _), tokenize_append2 _ _ h7,
      tokenize_single _ (intToStr_commaFree2 _) (intToStr_ne_empty _)]
  rw [ht]
  simp only [List.length_cons, List.getD]
  rw [if_pos (by omega)]
  simp only [List.get?, Option.getD_some]
  rw [stoiOpt_intToStr _ hcr.1 hcr.2, stoiOpt_intToStr _ hmx.1 hmx.2]

theorem exam_roundTrip (e : Exam) (h1 : commaFree e.examId)
    (h2 : commaFree e.courseId) (h3 : commaFree e.examName)
    (h4 : commaFree e.examDate) (h5 : commaFree e.examTime)
    (h6 : commaFree e.examType) (htm : intRange e.totalMarks) :
    Exam.fromCSV e.toCSV = .ok e := by
  unfold Exam.fromCSV
  have ht : tokenize e.toCSV =
      [e.examId, e.courseId, e.examName, e.examDate, e.examTime, e.examType,
        intToStr e.totalMarks] := by
    unfold Exam.toCSV
    simp only [str_append_assoc]
    rw [tokenize_append2 _ _ h1, tokenize_append2 _ _ h2, tokenize_append2 _ _ h3,
      tokenize_append2 _ _ h4, tokenize_append2 _ _ h5, tokenize_append2 _ _ h6,
      tokenize_single _ (intToStr_commaFree2 _) (intToStr_ne_empty _)]
  rw [ht]
  simp only [List.length_cons, List.getD]
  rw [if_pos (by omega)]
  simp only [List.get?, Option.getD_some]
  rw [stoiOpt_intToStr _ htm.1 htm.2]

theorem user_roundTrip (u : User) (h1 : commaFree u.id)
    (h2 : commaFree u.username) (h3 : commaFree u.passwordHash)
    (h4 : commaFree u.role) (h5 : commaFree u.name) (h6 : commaFree u.email)
    (h7 : commaFree u.phone) (h8 : commaFree u.address)
    (h9 : commaFree u.departmentId) (h10 : commaFree u.dateJoined)
    (hne : u.dateJoined ≠ "") :
    User.fromCSV u.toCSV = u := by
  unfold User.fromCSV
  have ht : tokenize u.toCSV =
      [u.id, u.username, u.passwordHash, u.role, u.name, u.email, u.phone,
        u.address, u.departmentId, u.dateJoined] := by
    unfold User.toCSV
    simp only [str_append_assoc]
    rw [tokenize_append2 _ _ h1, tokenize_append2 _ _ h2, tokenize_append2 _ _ h3,
      tokenize_append2 _ _ h4, tokenize_append2 _ _ h5, tokenize_append2 _ _ h6,
      tokenize_append2 _ _ h7, tokenize_append2 _ _ h8, tokenize_append2 _ _ h9,
      tokenize_single _ h10 hne]
  rw [ht]
  simp only [List.length_cons, List.getD]
  rw [if_pos (by omega)]
  simp only [List.get?, Option.getD_some]

theorem enrollment_roundTrip (e : Enrollment) (h1 : commaFree e.studentId)
    (h2 : commaFree e.courseId) (h3 : commaFree e.grade)
    (h4 : commaFree e.status) (hne : e.status ≠ "") :
    Enrollment.fromCSV e.toCSV = e := by
  unfold Enrollment.fromCSV
  have ht : tokenize e.toCSV = [e.studentId, e.courseId, e.grade, e.status] := by
    unfold Enrollment.toCSV
    simp only [str_append_assoc]
    rw [tokenize_append2 _ _ h1, tokenize_append2 _ _ h2, tokenize_append2 _ _ h3,
      tokenize_single _ h4 hne]
  rw [ht]
  simp only [List.length_cons, List.getD]
  rw [if_pos (by omega)]
  simp only [List.get?, Option.getD_some]

theorem attendance_roundTrip (a : Attendance) (h1 : commaFree a.studentId)
    (h2 : commaFree a.courseId) (h3 : commaFree a.date)
    (h4 : commaFree a.status) (hne : a.status ≠ "") :
    Attendance.fromCSV a.toCSV = a := by
  unfold Attendance.fromCSV
  have ht : tokenize a.toCSV = [a.studentId, a.courseId, a.date, a.status] := by
    unfold Attendance.toCSV
    simp only [str_append_assoc]
    rw [tokenize_append2 _ _ h1, tokenize_append2 _ _ h2, tokenize_append2 _ _ h3,
      tokenize_single _ h4 hne]
  rw [ht]
  simp only [List.length_cons, List.getD]
  rw [if_pos (by omega)]
  simp only [List.get?, Option.getD_some]

/-! ## Characterizing `generateNextId` -/

/-- The number an existing id contributes to the allocator's scan:
`some v` when the id strictly extends the prefix and `std::stoi`
accepts its suffix with value `v`. -/
def idContribution (pfx id : String) : Option Int :=
  if pfx.data.length < id.data.length ∧ id.data.take pfx.data.length = pfx.data then
    stoiOpt ⟨id.data.drop pfx.data.length⟩
  else none

/-- Spec-level reading of the scan: the maximum contributed suffix
value (0 when none contributes). -/
def maxSuffix (pfx : String) (ids : List String) : Int :=
  (ids.filterMap (idContribution pfx)).foldl max 0

/-- `prefix` + `maxNum+1` zero-padded on the left to width 3. -/
def padTo3 (m : Int) : String :=
  ⟨List.replicate (3 - (intToStr m).data.length) '0'⟩ ++ intToStr m

theorem generateNextId_fold (pfx : String) :
    ∀ (ids : List String) (init : Int),
      ids.foldl (fun m id =>
        if pfx.data.length < id.data.length ∧ id.data.take pfx.data.length = pfx.data then
          match stoiOpt ⟨id.data.drop pfx.data.length⟩ with
          | some num => max m num
          | none => m
        else m) init =
      (ids.filterMap (idContribution pfx)).foldl max init := by
  intro ids
  induction ids with
  | nil => intro init; rfl
  | cons id rest ih =>
    intro init
    rw [List.foldl_cons, List.filterMap_cons]
    by_cases hc : pfx.data.length < id.data.length ∧
        id.data.take pfx.data.length = pfx.data
    · have hid : idContribution pfx id = stoiOpt ⟨id.data.drop pfx.data.length⟩ := by
        unfold idContribution
        rw [if_pos hc]
      rw [hid, if_pos hc]
      cases hs : stoiOpt ⟨id.data.drop pfx.data.length⟩ with
      | none => simp only [hs]; rw [ih]
      | some v => simp only [hs]; rw [ih]; rfl
    · have hid : idContribution pfx id = none := by
        unfold idContribution
        rw [if_neg hc]
      rw [hid, if_neg hc, ih]

theorem foldl_max_init_le (l : List Int) : ∀ init : Int, init ≤ l.foldl max init := by
  induction l with
  | nil => intro init; exact le_refl _
  | cons a rest ih =>
    intro init
    rw [List.foldl_cons]
    exact le_trans (le_max_left init a) (ih (max init a))

theorem foldl_max_le_of_mem {a : Int} (l : List Int) (h : a ∈ l) :
    ∀ init : Int, a ≤ l.foldl max init := by
  induction l with
  | nil => exact absurd h (List.not_mem_nil a)
  | cons b rest ih =>
    intro init
    rw [List.foldl_cons]
    rcases List.mem_cons.mp h with rfl | hm
    · exact le_trans (le_max_right init a) (foldl_max_init_le rest _)
    · exact ih hm _

theorem maxSuffix_nonneg (pfx : String) (ids : List String) :
    0 ≤ maxSuffix pfx ids :=
  foldl_max_init_le _ 0

theorem contribution_le_maxSuffix (pfx id : String) (ids : List String)
    (hmem : id ∈ ids) {v : Int} (hv : idContribution pfx id = some v) :
    v ≤ maxSuffix pfx ids := by
  apply foldl_max_le_of_mem
  exact List.mem_filterMap.mpr ⟨id, hmem, hv⟩

theorem intToStr_data_of_pos (m : Int) (h : 0 ≤ m) :
    (intToStr m).data = (natDigitsRev m.toNat).reverse := by
  unfold intToStr
  rw [if_neg (by omega)]
  rfl

theorem intToStr_len_le_three (m : Int) (h1 : 0 ≤ m) (h2 : m ≤ 999) :
    (intToStr m).data.length ≤ 3 := by
  rw [intToStr_data_of_pos m h1, List.length_reverse]
  by_contra hlen
  have hge := natDigitsRev_ge m.toNat
  by_cases hz : 1 ≤ m.toNat
  · have := hge hz
    have h10 : (10 : Nat) ^ 3 ≤ 10 ^ ((natDigitsRev m.toNat).length - 1) :=
      Nat.pow_le_pow_right (by omega) (by omega)
    have : (1000 : Nat) ≤ m.toNat := by
      calc (1000 : Nat) = 10 ^ 3 := by norm_num
        _ ≤ 10 ^ ((natDigitsRev m.toNat).length - 1) := h10
        _ ≤ m.toNat := hge hz
    omega
  · have hm0 : m.toNat = 0 := by omega
    rw [hm0] at hlen
    have : natDigitsRev 0 = ['0'] := by decide
    rw [this] at hlen
    simp at hlen

theorem intToStr_len_ge_four (m : Int) (h : 1000 ≤ m) :
    4 ≤ (intToStr m).data.length := by
  rw [intToStr_data_of_pos m (by omega), List.length_reverse]
  by_contra hlen
  have hlt := natDigitsRev_lt m.toNat
  have h10 : (10 : Nat) ^ (natDigitsRev m.toNat).length ≤ 10 ^ 3 :=
    Nat.pow_le_pow_right (by omega) (by omega)
  have : m.toNat < 1000 := by
    calc m.toNat < 10 ^ (natDigitsRev m.toNat).length := hlt
      _ ≤ 10 ^ 3 := h10
      _ = 1000 := by norm_num
  omega

theorem generateNextId_eq (pfx : String) (ids : List String) :
    generateNextId pfx ids =
      if (intToStr (maxSuffix pfx ids + 1)).data.length ≤ 3 then
        some (pfx ++
          ⟨List.replicate (3 - (intToStr (maxSuffix pfx ids + 1)).data.length) '0'⟩ ++
          intToStr (maxSuffix pfx ids + 1))
      else none := by
  simp only [generateNextId]
  rw [generateNextId_fold pfx ids 0]
  rfl

theorem generateNextId_small (pfx : String) (ids : List String)
    (h : maxSuffix pfx ids ≤ 998) :
    generateNextId pfx ids = some (pfx ++ padTo3 (maxSuffix pfx ids + 1)) ∧
      (padTo3 (maxSuffix pfx ids + 1)).data.length = 3 := by
  have hM0 := maxSuffix_nonneg pfx ids
  have hlen : (intToStr (maxSuffix pfx ids + 1)).data.length ≤ 3 :=
    intToStr_len_le_three _ (by omega) (by omega)
  constructor
  · rw [generateNextId_eq, if_pos hlen]
    unfold padTo3
    rw [str_append_assoc]
  · unfold padTo3
    rw [String.data_append, List.length_append, List.length_replicate]
    omega

theorem generateNextId_overflow (pfx : String) (ids : List String)
    (h : 999 ≤ maxSuffix pfx ids) :
    generateNextId pfx ids = none := by
  have hlen : 4 ≤ (intToStr (maxSuffix pfx ids + 1)).data.length :=
    intToStr_len_ge_four _ (by omega)
  rw [generateNextId_eq, if_neg (by omega)]

theorem generateNextId_not_mem (pfx : String) (ids : List String) (r : String)
    (h : generateNextId pfx ids = some r) : r ∉ ids := by
  intro hr
  have hM0 := maxSuffix_nonneg pfx ids
  rw [generateNextId_eq] at h
  by_cases hlen : (intToStr (maxSuffix pfx ids + 1)).data.length ≤ 3
  · rw [if_pos hlen] at h
    injection h with h
    have hbound : maxSuffix pfx ids + 1 ≤ 999 := by
      by_contra hb
      have := intToStr_len_ge_four (maxSuffix pfx ids + 1) (by omega)
      omega
    have hsdata : (intToStr (maxSuffix pfx ids + 1)).data =
        (natDigitsRev (maxSuffix pfx ids + 1).toNat).reverse :=
      intToStr_data_of_pos _ (by omega)
    have hrdata : r.data = pfx.data ++
        (List.replicate (3 - (intToStr (maxSuffix pfx ids + 1)).data.length) '0' ++
          (intToStr (maxSuffix pfx ids + 1)).data) := by
      rw [← h, String.data_append, String.data_append, List.append_assoc]
    have hslen : 1 ≤ (intToStr (maxSuffix pfx ids + 1)).data.length := by
      have := intToStr_ne_nil (maxSuffix pfx ids + 1)
      cases hz : (intToStr (maxSuffix pfx ids + 1)).data with
      | nil => exact absurd hz this
      | cons a b => simp [hz]
    have hcontrib : idContribution pfx r = some ((maxSuffix pfx ids + 1).toNat : Int) := by
      unfold idContribution
      rw [if_pos ?cond]
      case cond =>
        constructor
        · rw [hrdata, List.length_append, List.length_append, List.length_replicate]
          omega
        · rw [hrdata, List.take_left]
      rw [show List.drop pfx.data.length r.data =
          List.replicate (3 - (intToStr (maxSuffix pfx ids + 1)).data.length) '0' ++
            (intToStr (maxSuffix pfx ids + 1)).data by rw [hrdata, List.drop_left]]
      rw [hsdata]
      exact stoiOpt_padded _ _ (by omega)
    have hle := contribution_le_maxSuffix pfx r ids hr hcontrib
    omega
  · rw [if_neg hlen] at h
    exact Option.noConfusion h

/-! ## Grade upsert: helper lemmas -/

/-- The records of `grades` for one `(studentId, examId)` pair. -/
def pairRecords (grades : List Grade) (s e : String) : List Grade :=
  grades.filter fun g => decide (g.studentId = s ∧ g.examId = e)

/-- How many records one `(studentId, examId)` pair has. -/
def pairCount (grades : List Grade) (s e : String) : Nat :=
  (pairRecords grades s e).length

/-- The §3 invariant: at most one Grade per `(studentId, examId)`. -/
def atMostOnePerPair (grades : List Grade) : Prop :=
  ∀ s e, pairCount grades s e ≤ 1

theorem pairRecords_cons_pos (g : Grade) (t : List Grade) (s e : String)
    (h : g.studentId = s ∧ g.examId = e) :
    pairRecords (g :: t) s e = g :: pairRecords t s e := by
  unfold pairRecords
  rw [List.filter_cons]
  simp [h]

theorem pairRecords_cons_neg (g : Grade) (t : List Grade) (s e : String)
    (h : ¬(g.studentId = s ∧ g.examId = e)) :
    pairRecords (g :: t) s e = pairRecords t s e := by
  unfold pairRecords
  rw [List.filter_cons]
  simp [h]

theorem enterGrade_pairRecords (gs : List Grade) (s e : String) (m : Int)
    (l c : String) (h : pairCount gs s e ≤ 1) :
    pairRecords (enterGrade gs s e m l c) s e = [⟨s, e, m, l, c⟩] := by
  induction gs with
  | nil =>
    unfold enterGrade
    rw [pairRecords_cons_pos _ _ _ _ (by exact ⟨rfl, rfl⟩)]
    rfl
  | cons g t ih =>
    unfold enterGrade
    by_cases hm : g.studentId = s ∧ g.examId = e
    · rw [if_pos hm]
      have ht : pairRecords t s e = [] := by
        have := h
        unfold pairCount at this
        rw [pairRecords_cons_pos g t s e hm] at this
        simp only [List.length_cons] at this
        have : (pairRecords t s e).length = 0 := by omega
        exact List.length_eq_zero.mp this
      rw [pairRecords_cons_pos _ _ _ _ (by exact ⟨hm.1, hm.2⟩), ht]
      obtain ⟨hm1, hm2⟩ := hm
      cases g
      simp only at hm1 hm2
      simp [hm1, hm2]
    · rw [if_neg hm]
      rw [pairRecords_cons_neg g _ s e hm]
      apply ih
      have : pairCount (g :: t) s e = pairCount t s e := by
        unfold pairCount
        rw [pairRecords_cons_neg g t s e hm]
      omega

theorem enterGrade_pairRecords_other (gs : List Grade) (s e : String) (m : Int)
    (l c : String) (s2 e2 : String) (hne : ¬(s2 = s ∧ e2 = e)) :
    pairRecords (enterGrade gs s e m l c) s2 e2 = pairRecords gs s2 e2 := by
  induction gs with
  | nil =>
    unfold enterGrade
    rw [pairRecords_cons_neg _ _ _ _ (by
      rintro ⟨h1, h2⟩
      exact hne ⟨h1.symm, h2.symm⟩)]
  | cons g t ih =>
    unfold enterGrade
    by_cases hm : g.studentId = s ∧ g.examId = e
    · rw [if_pos hm]
      have hgne : ¬(g.studentId = s2 ∧ g.examId = e2) := by
        rintro ⟨h1, h2⟩
        exact hne ⟨h1.symm.trans hm.1, h2.symm.trans hm.2⟩
      rw [pairRecords_cons_neg _ _ _ _ hgne,
        pairRecords_cons_neg _ _ _ _ (by exact hgne)]
    · rw [if_neg hm]
      by_cases hg2 : g.studentId = s2 ∧ g.examId = e2
      · rw [pairRecords_cons_pos _ _ _ _ hg2, pairRecords_cons_pos _ _ _ _ hg2, ih]
      · rw [pairRecords_cons_neg _ _ _ _ hg2, pairRecords_cons_neg _ _ _ _ hg2, ih]

theorem enterGrade_length_of_present (gs : List Grade) (s e : String) (m : Int)
    (l c : String) (h : 1 ≤ pairCount gs s e) :
    (enterGrade gs s e m l c).length = gs.length := by
  induction gs with
  | nil =>
    exact absurd h (by simp [pairCount, pairRecords])
  | cons g t ih =>
    unfold enterGrade
    by_cases hm : g.studentId = s ∧ g.examId = e
    · rw [if_pos hm]
      simp
    · rw [if_neg hm]
      simp only [List.length_cons]
      rw [ih]
      have : pairCount (g :: t) s e = pairCount t s e := by
        unfold pairCount
        rw [pairRecords_cons_neg g t s e hm]
      omega

theorem enterGrade_length_of_absent (gs : List Grade) (s e : String) (m : Int)
    (l c : String) (h : pairCount gs s e = 0) :
    enterGrade gs s e m l c = gs ++ [⟨s, e, m, l, c⟩] := by
  induction gs with
  | nil => rfl
  | cons g t ih =>
    unfold enterGrade
    by_cases hm : g.studentId = s ∧ g.examId = e
    · exfalso
      have : pairCount (g :: t) s e = pairCount t s e + 1 := by
        unfold pairCount
        rw [pairRecords_cons_pos g t s e hm]
        simp
      omega
    · rw [if_neg hm, List.cons_append]
      congr 1
      apply ih
      have : pairCount (g :: t) s e = pairCount t s e := by
        unfold pairCount
        rw [pairRecords_cons_neg g t s e hm]
      omega

theorem enterGrade_atMostOne (gs : List Grade) (s e : String) (m : Int)
    (l c : String) (h : atMostOnePerPair gs) :
    atMostOnePerPair (enterGrade gs s e m l c) := by
  intro s2 e2
  by_cases hp : s2 = s ∧ e2 = e
  · obtain ⟨rfl, rfl⟩ := hp
    unfold pairCount
    rw [enterGrade_pairRecords gs s2 e2 m l c (h s2 e2)]
    simp
  · unfold pairCount
    rw [enterGrade_pairRecords_other gs s e m l c s2 e2 hp]
    exact h s2 e2

/-! ## Load-routine helper lemmas -/

theorem department_fromCSV_malformed (line : String)
    (h : (tokenize line).length < 4) :
    Department.fromCSV line = Department.empty := by
  unfold Department.fromCSV
  rw [if_neg (by omega)]

theorem loadDepartments_length (lines : List String) :
    (loadDepartments lines).length = (lines.filter (· ≠ "")).length := by
  induction lines with
  | nil => rfl
  | cons l rest ih =>
    unfold loadDepartments
    rw [List.filter_cons]
    by_cases hl : l = "" <;> simp [hl, ih]

theorem loadDepartments_malformed_mem (lines : List String) (line : String)
    (hmem : line ∈ lines) (hne : line ≠ "")
    (hlen : (tokenize line).length < 4) :
    Department.empty ∈ loadDepartments lines := by
  induction lines with
  | nil => exact absurd hmem (List.not_mem_nil line)
  | cons l rest ih =>
    unfold loadDepartments
    rcases List.mem_cons.mp hmem with rfl | hrest
    · rw [if_neg hne]
      rw [department_fromCSV_malformed line hlen]
      exact List.mem_cons_self _ _
    · by_cases hl : l = ""
      · rw [if_pos hl]
        exact ih hrest
      · rw [if_neg hl]
        exact List.mem_cons_of_mem _ (ih hrest)

theorem loadCourses_error (lines : List String) (line : String)
    (hmem : line ∈ lines) (hne : line ≠ "")
    (herr : Course.fromCSV line = .error ()) :
    loadCourses lines = .error () := by
  induction lines with
  | nil => exact absurd hmem (List.not_mem_nil line)
  | cons l rest ih =>
    unfold loadCourses
    rcases List.mem_cons.mp hmem with rfl | hrest
    · rw [if_neg hne, herr]
      cases loadCourses rest <;> rfl
    · by_cases hl : l = ""
      · rw [if_pos hl]
        exact ih hrest
      · rw [if_neg hl]
        rw [ih hrest]
        cases Course.fromCSV l <;> rfl

/-! ## Letter-grade band characterization -/

theorem band_iff (t : ℤ) (m T : Int) (hT : 0 < T) :
    ((t : ℚ) ≤ (m : ℚ) / (T : ℚ) * 100) ↔ t * T ≤ 100 * m := by
  have hTQ : (0 : ℚ) < (T : ℚ) := by exact_mod_cast hT
  rw [div_mul_eq_mul_div, le_div_iff₀ hTQ]
  constructor
  · intro h2
    have h3 : ((t * T : Int) : ℚ) ≤ ((100 * m : Int) : ℚ) := by push_cast; linarith
    exact_mod_cast h3
  · intro h2
    have h3 : ((t * T : Int) : ℚ) ≤ ((100 * m : Int) : ℚ) := by exact_mod_cast h2
    push_cast at h3
    linarith

/-- Claim C6: for marks in `[0, totalMarks]` with positive total, the
letter grade computed by `enterGrades` is the fixed descending ladder on
`marks/totalMarks*100` with lower-inclusive bands at
90/85/80/75/70/65/60/55/50, and the stated boundary ratios evaluate to
"A+", "A", "C-" and "F". -/
theorem c6_letterGrade :
    (∀ m T : Int, 0 ≤ m → m ≤ T → 0 < T →
      ((letterGradeOf m T = "A+" ↔ 90 * T ≤ 100 * m) ∧
       (letterGradeOf m T = "A" ↔ 85 * T ≤ 100 * m ∧ 100 * m < 90 * T) ∧
       (letterGradeOf m T = "A-" ↔ 80 * T ≤ 100 * m ∧ 100 * m < 85 * T) ∧
       (letterGradeOf m T = "B+" ↔ 75 * T ≤ 100 * m ∧ 100 * m < 80 * T) ∧
       (letterGradeOf m T = "B" ↔ 70 * T ≤ 100 * m ∧ 100 * m < 75 * T) ∧
       (letterGradeOf m T = "B-" ↔ 65 * T ≤ 100 * m ∧ 100 * m < 70 * T) ∧
       (letterGradeOf m T = "C+" ↔ 60 * T ≤ 100 * m ∧ 100 * m < 65 * T) ∧
       (letterGradeOf m T = "C" ↔ 55 * T ≤ 100 * m ∧ 100 * m < 60 * T) ∧
       (letterGradeOf m T = "C-" ↔ 50 * T ≤ 100 * m ∧ 100 * m < 55 * T) ∧
       (letterGradeOf m T = "F" ↔ 100 * m < 50 * T))) ∧
    letterGradeOf 90 100 = "A+" ∧ letterGradeOf 8999 10000 = "A" ∧
    letterGradeOf 50 100 = "C-" ∧ letterGradeOf 4999 10000 = "F" := by
  refine ⟨?_, ?_, ?_, ?_, ?_⟩
  · intro m T h0 hmT hT
    have e90 := band_iff 90 m T hT
    have e85 := band_iff 85 m T hT
    have e80 := band_iff 80 m T hT
    have e75 := band_iff 75 m T hT
    have e70 := band_iff 70 m T hT
    have e65 := band_iff 65 m T hT
    have e60 := band_iff 60 m T hT
    have e55 := band_iff 55 m T hT
    have e50 := band_iff 50 m T hT
    push_cast at e90 e85 e80 e75 e70 e65 e60 e55 e50
    simp only [letterGradeOf]
    simp only [e90, e85, e80, e75, e70, e65, e60, e55, e50]
    split_ifs
    all_goals refine ⟨?_, ?_, ?_, ?_, ?_, ?_, ?_, ?_, ?_, ?_⟩
    all_goals constructor
    all_goals intro h
    all_goals first
    | rfl
    | exact absurd h (by decide)
    | omega
  · simp only [letterGradeOf]
    norm_num
  · simp only [letterGradeOf]
    norm_num
  · simp only [letterGradeOf]
    norm_num
  · simp only [letterGradeOf]
    norm_num

/-! ## Claim theorems -/

/-- Claim C1, counterexample: a Grade whose comments field is empty does
not round-trip — its encoding ends in a trailing comma, `getline` yields
only 4 tokens, and decoding falls back to the empty record. -/
theorem c1_counterexample :
    Grade.fromCSV (Grade.toCSV ⟨"S1", "E1", 10, "A", ""⟩) ≠
      .ok (⟨"S1", "E1", 10, "A", ""⟩ : Grade) := by decide

/-- Claim C1 (amended): for every entity kind, decoding the encoded
form returns the record, provided every field is comma-free, the final
field is non-empty (an empty final field produces a trailing delimiter
whose empty token `getline` drops, making the field count too small),
and integer fields are in `int` range.  For Course and Exam the final
field is an integer rendering and hence never empty. -/
theorem c1_roundTrip :
    (∀ d : Department, commaFree d.deptId → commaFree d.deptName →
      commaFree d.headOfDept → commaFree d.description → d.description ≠ "" →
      Department.fromCSV d.toCSV = d) ∧
    (∀ x : Semester, commaFree x.semesterId → commaFree x.semesterName →
      commaFree x.startDate → commaFree x.endDate → commaFree x.status →
      x.status ≠ "" → Semester.fromCSV x.toCSV = x) ∧
    (∀ c : Course, commaFree c.courseId → commaFree c.courseName →
      commaFree c.teacherId → commaFree c.departmentId →
      commaFree c.semesterId → commaFree c.schedule → intRange c.credits →
      intRange c.maxStudents → Course.fromCSV c.toCSV = .ok c) ∧
    (∀ e : Exam, commaFree e.examId → commaFree e.courseId →
      commaFree e.examName → commaFree e.examDate → commaFree e.examTime →
      commaFree e.examType → intRange e.totalMarks →
      Exam.fromCSV e.toCSV = .ok e) ∧
    (∀ g : Grade, commaFree g.studentId → commaFree g.examId →
      commaFree g.letterGrade → commaFree g.comments → g.comments ≠ "" →
      intRange g.marksObtained → Grade.fromCSV g.toCSV = .ok g) ∧
    (∀ u : User, commaFree u.id → commaFree u.username →
      commaFree u.passwordHash → commaFree u.role → commaFree u.name →
      commaFree u.email → commaFree u.phone → commaFree u.address →
      commaFree u.departmentId → commaFree u.dateJoined → u.dateJoined ≠ "" →
      User.fromCSV u.toCSV = u) ∧
    (∀ e : Enrollment, commaFree e.studentId → commaFree e.courseId →
      commaFree e.grade → commaFree e.status → e.status ≠ "" →
      Enrollment.fromCSV e.toCSV = e) ∧
    (∀ a : Attendance, commaFree a.studentId → commaFree a.courseId →
      commaFree a.date → commaFree a.status → a.status ≠ "" →
      Attendance.fromCSV a.toCSV = a) := by
  refine ⟨?_, ?_, ?_, ?_, ?_, ?_, ?_, ?_⟩
  · exact fun d h1 h2 h3 h4 h5 => department_roundTrip d h1 h2 h3 h4 h5
  · exact fun x h1 h2 h3 h4 h5 h6 => semester_roundTrip x h1 h2 h3 h4 h5 h6
  · exact fun c h1 h2 h3 h4 h5 h7 hcr hmx =>
      course_roundTrip c h1 h2 h3 h4 h5 h7 hcr hmx
  · exact fun e h1 h2 h3 h4 h5 h6 htm => exam_roundTrip e h1 h2 h3 h4 h5 h6 htm
  · exact fun g h1 h2 h4 h5 hne hm => grade_roundTrip g h1 h2 h4 h5 hne hm
  · exact fun u h1 h2 h3 h4 h5 h6 h7 h8 h9 h10 hne =>
      user_roundTrip u h1 h2 h3 h4 h5 h6 h7 h8 h9 h10 hne
  · exact fun e h1 h2 h3 h4 h5 => enrollment_roundTrip e h1 h2 h3 h4 h5
  · exact fun a h1 h2 h3 h4 h5 => attendance_roundTrip a h1 h2 h3 h4 h5

/-- Claim C1, witness at a concrete Grade. -/
theorem c1_witness :
    Grade.fromCSV (Grade.toCSV ⟨"STU001", "EX001", 42, "A", "good"⟩) =
      .ok (⟨"STU001", "EX001", 42, "A", "good"⟩ : Grade) :=
  c1_roundTrip.2.2.2.2.1 ⟨"STU001", "EX001", 42, "A", "good"⟩
    (by decide) (by decide) (by decide) (by decide) (by decide) (by decide)

/-- Claim C2: on the non-crashing range the allocator returns the
prefix followed by `max+1` zero-padded to exactly 3 digits, but when
`max+1` needs more than 3 digits the C++ computes `3 - length` in
`size_t`, underflows, and `std::string(SIZE_MAX,'0')` throws
`std::length_error` (modelled `none`): at the failing input
`("STU", ["STU999"])` the call crashes instead of returning
`"STU1000"`. -/
theorem c2_generateNextId :
    generateNextId "STU" ["STU999"] = none ∧
    (∀ (pfx : String) (ids : List String), maxSuffix pfx ids ≤ 998 →
      generateNextId pfx ids = some (pfx ++ padTo3 (maxSuffix pfx ids + 1)) ∧
        (padTo3 (maxSuffix pfx ids + 1)).data.length = 3) ∧
    (∀ (pfx : String) (ids : List String), 999 ≤ maxSuffix pfx ids →
      generateNextId pfx ids = none) := by
  refine ⟨by decide, ?_, ?_⟩
  · exact fun pfx ids h => generateNextId_small pfx ids h
  · exact fun pfx ids h => generateNextId_overflow pfx ids h

/-- Claim C2, witness at a concrete prefix and id set. -/
theorem c2_witness :
    maxSuffix "STU" ["STU001"] ≤ 998 ∧
      generateNextId "STU" ["STU001"] =
        some ("STU" ++ padTo3 (maxSuffix "STU" ["STU001"] + 1)) :=
  ⟨by decide, (c2_generateNextId.2.1 "STU" ["STU001"] (by decide)).1⟩

/-- Claim C3, counterexample: a malformed Department line (2 fields) is
not skipped — `loadDepartments` keeps the decoded empty record, so the
collection is not free of records originating from malformed lines. -/
theorem c3_counterexample :
    loadDepartments ["X,Y"] = [Department.empty] ∧
      loadDepartments ["X,Y"] ≠ [] := by decide

/-- Claim C3 (amended): decoding a below-minimum line yields the
empty/zero-value record and never raises, but `loadAll` does not skip
the line: the empty record is appended, one record per non-empty line
(malformed ones included) ends up in the collection. -/
theorem c3_malformed :
    (∀ line : String, (tokenize line).length < 4 →
      Department.fromCSV line = Department.empty) ∧
    (∀ lines : List String,
      (loadDepartments lines).length = (lines.filter (· ≠ "")).length) ∧
    (∀ (lines : List String) (line : String), line ∈ lines → line ≠ "" →
      (tokenize line).length < 4 →
      Department.empty ∈ loadDepartments lines) :=
  ⟨department_fromCSV_malformed, loadDepartments_length,
    fun lines line h1 h2 h3 => loadDepartments_malformed_mem lines line h1 h2 h3⟩

/-- Claim C3, witness at a concrete malformed line. -/
theorem c3_witness : Department.empty ∈ loadDepartments ["X,Y"] :=
  c3_malformed.2.2 ["X,Y"] "X,Y" (by decide) (by decide) (by decide)

/-- Claim C4, counterexample: a Course line with a non-numeric credits
field makes `std::stoi` throw inside `fromCSV`; nothing catches it, so
`loadCourses` ends in the exception (`.error ()`) instead of completing
with a return value. -/
theorem c4_counterexample :
    Course.fromCSV "C1,Intro,T1,D1,S1,abc,Mon,30" = .error () ∧
      loadCourses ["C1,Intro,T1,D1,S1,abc,Mon,30"] = .error () := by decide

/-- Claim C4 (amended): a non-numeric integer field causes decoding to
fail, but by a `std::stoi` exception that propagates out of `fromCSV`
and `loadCourses` (aborting the load), not by a silent drop. -/
theorem c4_exception :
    (∀ (lines : List String) (line : String), line ∈ lines → line ≠ "" →
      Course.fromCSV line = .error () → loadCourses lines = .error ()) ∧
    Course.fromCSV "C1,Intro,T1,D1,S1,abc,Mon,30" = .error () :=
  ⟨fun lines line h1 h2 h3 => loadCourses_error lines line h1 h2 h3, by decide⟩

/-- Claim C4, witness at a concrete bad line. -/
theorem c4_witness :
    loadCourses ["C0,N,T,D,S,9,Sch,30", "C1,Intro,T1,D1,S1,abc,Mon,30"] = .error () :=
  c4_exception.1 _ "C1,Intro,T1,D1,S1,abc,Mon,30" (by decide) (by decide) (by decide)

/-- Claim C5: at the stated example the allocator yields `"STU004"`,
and whenever it returns at all the result is outside the existing id
set; but on `["STU999"]` the padding-width underflow makes the C++
throw (`none`) instead of producing an identifier. -/
theorem c5_allocator :
    generateNextId "STU" ["STU001", "STU003"] = some "STU004" ∧
    (∀ (pfx : String) (ids : List String) (r : String),
      generateNextId pfx ids = some r → r ∉ ids) ∧
    generateNextId "STU" ["STU999"] = none := by
  refine ⟨by decide, ?_, by decide⟩
  exact fun pfx ids r h => generateNextId_not_mem pfx ids r h

/-- Claim C5, witness: the freshly produced id is not among the
existing ones. -/
theorem c5_witness : "STU004" ∉ ["STU001", "STU003"] :=
  c5_allocator.2.1 "STU" ["STU001", "STU003"] "STU004" (by decide)

/-- Claim C6, witness at the 90% boundary. -/
theorem c6_witness :
    (0 : Int) ≤ 90 ∧ (90 : Int) ≤ 100 ∧ (0 : Int) < 100 ∧
      (letterGradeOf 90 100 = "A+" ↔ 90 * 100 ≤ 100 * (90 : Int)) :=
  ⟨by decide, by decide, by decide,
    (c6_letterGrade.1 90 100 (by decide) (by decide) (by decide)).1⟩

/-- Claim C7: under the at-most-one-record-per-pair invariant, entering
a grade for a pair that already has a record rewrites that record in
place (same collection length, the pair's records become exactly the
new one), two successive entries leave exactly one record for the pair
holding the latest values, and the invariant is preserved. -/
theorem c7_gradeUpsert :
    ∀ (gs : List Grade) (s e : String), atMostOnePerPair gs →
      (∀ (m : Int) (l c : String),
        (1 ≤ pairCount gs s e → (enterGrade gs s e m l c).length = gs.length) ∧
        (pairCount gs s e = 0 → enterGrade gs s e m l c = gs ++ [⟨s, e, m, l, c⟩]) ∧
        pairRecords (enterGrade gs s e m l c) s e = [⟨s, e, m, l, c⟩] ∧
        atMostOnePerPair (enterGrade gs s e m l c)) ∧
      (∀ (m1 : Int) (l1 c1 : String) (m2 : Int) (l2 c2 : String),
        pairRecords (enterGrade (enterGrade gs s e m1 l1 c1) s e m2 l2 c2) s e =
          [⟨s, e, m2, l2, c2⟩] ∧
        pairCount (enterGrade (enterGrade gs s e m1 l1 c1) s e m2 l2 c2) s e = 1 ∧
        (enterGrade (enterGrade gs s e m1 l1 c1) s e m2 l2 c2).length =
          (enterGrade gs s e m1 l1 c1).length ∧
        atMostOnePerPair (enterGrade (enterGrade gs s e m1 l1 c1) s e m2 l2 c2)) := by
  intro gs s e h
  constructor
  · intro m l c
    refine ⟨?_, ?_, ?_, ?_⟩
    · exact fun h1 => enterGrade_length_of_present gs s e m l c h1
    · exact fun h0 => enterGrade_length_of_absent gs s e m l c h0
    · exact enterGrade_pairRecords gs s e m l c (h s e)
    · exact enterGrade_atMostOne gs s e m l c h
  · intro m1 l1 c1 m2 l2 c2
    have h1 : atMostOnePerPair (enterGrade gs s e m1 l1 c1) :=
      enterGrade_atMostOne gs s e m1 l1 c1 h
    have hcount1 : pairCount (enterGrade gs s e m1 l1 c1) s e = 1 := by
      unfold pairCount
      rw [enterGrade_pairRecords gs s e m1 l1 c1 (h s e)]
      rfl
    refine ⟨?_, ?_, ?_, ?_⟩
    · exact enterGrade_pairRecords _ s e m2 l2 c2 (by omega)
    · unfold pairCount
      rw [enterGrade_pairRecords _ s e m2 l2 c2 (by omega)]
      rfl
    · exact enterGrade_length_of_present _ s e m2 l2 c2 (by omega)
    · exact enterGrade_atMostOne _ s e m2 l2 c2 h1

/-- Claim C7, witness: entering twice for the same pair on a singleton
store keeps one record with the latest values. -/
theorem c7_witness :
    pairRecords
        (enterGrade (enterGrade [⟨"S1", "E1", 5, "F", "x"⟩] "S1" "E1" 10 "C-" "y")
          "S1" "E1" 95 "A+" "z") "S1" "E1" = [⟨"S1", "E1", 95, "A+", "z"⟩] :=
  ((c7_gradeUpsert [⟨"S1", "E1", 5, "F", "x"⟩] "S1" "E1"
    (by
      intro s2 e2
      unfold pairCount
      by_cases hp : (⟨"S1", "E1", 5, "F", "x"⟩ : Grade).studentId = s2 ∧
          (⟨"S1", "E1", 5, "F", "x"⟩ : Grade).examId = e2
      · rw [pairRecords_cons_pos _ _ _ _ hp]
        simp [pairRecords]
      · rw [pairRecords_cons_neg _ _ _ _ hp]
        simp [pairRecords])).2 10 "C-" "y" 95 "A+" "z").1

/-- Claim C8: `isStudentEnrolled` is true exactly when some record of
the pair has status exactly `"enrolled"`. -/
theorem c8_isEnrolled :
    ∀ (es : List Enrollment) (s c : String),
      isStudentEnrolled es s c = true ↔
        ∃ e, e ∈ es ∧ e.studentId = s ∧ e.courseId = c ∧ e.status = "enrolled" := by
  intro es s c
  unfold isStudentEnrolled
  rw [List.any_eq_true]
  constructor
  · rintro ⟨e, he, hb⟩
    simp only [Bool.and_eq_true, beq_iff_eq] at hb
    exact ⟨e, he, hb.1.1, hb.1.2, hb.2⟩
  · rintro ⟨e, he, h1, h2, h3⟩
    exact ⟨e, he, by simp [h1, h2, h3]⟩

/-- Claim C8, witness: an `"enrolled"` record makes the check true, a
`"completed"` one does not. -/
theorem c8_witness :
    isStudentEnrolled [⟨"S1", "C1", "", "enrolled"⟩] "S1" "C1" = true :=
  (c8_isEnrolled [⟨"S1", "C1", "", "enrolled"⟩] "S1" "C1").mpr
    ⟨⟨"S1", "C1", "", "enrolled"⟩, List.mem_cons_self _ _, rfl, rfl, rfl⟩

/-- Claim C9: when the users file decodes to no record, `loadUsers`
installs exactly the default administrator (`admin001`/`admin`, role
`admin`, digest of the fixed initial password) and immediately writes
it back; for every other entity kind an empty or missing file loads to
an empty collection. -/
theorem c9_loadUsers :
    ∀ (h : String → String) (now : Nat) (lines : List String),
      parseUsers lines = [] →
      (loadUsers h now lines =
        ([defaultAdmin h now], some [(defaultAdmin h now).toCSV]) ∧
       (defaultAdmin h now).id = "admin001" ∧
       (defaultAdmin h now).username = "admin" ∧
       (defaultAdmin h now).role = "admin" ∧
       (defaultAdmin h now).passwordHash = SimpleHash.hash h "admin123" ∧
       loadDepartments [] = [] ∧ loadSemesters [] = [] ∧
       loadCourses [] = .ok [] ∧ loadExams [] = .ok [] ∧
       loadGrades [] = .ok [] ∧ loadEnrollments [] = [] ∧
       loadAttendance [] = [] ∧ parseUsers [] = []) := by
  intro h now lines hempty
  refine ⟨?_, rfl, rfl, rfl, rfl, rfl, rfl, rfl, rfl, rfl, rfl, rfl, rfl⟩
  simp [loadUsers, hempty]

/-- Claim C9, witness with the identity standing in for the
implementation-defined string hash, at the missing-file line list. -/
theorem c9_witness :
    loadUsers (fun s => s) 0 [] =
      ([defaultAdmin (fun s => s) 0], some [(defaultAdmin (fun s => s) 0).toCSV]) :=
  (c9_loadUsers (fun s => s) 0 [] rfl).1

/-- Claim C10: `deleteUser` never removes an `"admin"` record — if the
first id match has role `"admin"` the whole collection is returned
unchanged with `false`, and every record whose role is `"admin"` keeps
its multiplicity in the result whatever the target id. -/
theorem c10_deleteUser :
    ∀ (users : List User) (id : String),
      (∀ u, users.find? (fun x => x.id == id) = some u → u.role = "admin" →
        deleteUser users id = (users, false)) ∧
      (∀ u : User, u.role = "admin" →
        (deleteUser users id).1.count u = users.count u) := by
  intro users id
  induction users with
  | nil =>
    constructor
    · intro u hf
      simp [List.find?] at hf
    · intro u _
      rfl
  | cons v t ih =>
    constructor
    · intro u hf hrole
      unfold deleteUser
      by_cases hv : v.id = id
      · rw [List.find?_cons_of_pos _ (by simp [hv])] at hf
        injection hf with hf
        subst hf
        rw [if_pos hv, if_pos hrole]
      · rw [List.find?_cons_of_neg _ (by simp [hv])] at hf
        rw [if_neg hv, ih.1 u hf hrole]
    · intro u hrole
      unfold deleteUser
      by_cases hv : v.id = id
      · rw [if_pos hv]
        by_cases hr : v.role = "admin"
        · rw [if_pos hr]
        · rw [if_neg hr]
          have hneq : u ≠ v := fun hu => hr (hu ▸ hrole)
          simp [List.count_cons, hneq]
      · rw [if_neg hv]
        simp only [List.count_cons]
        rw [ih.2 u hrole]

/-- Claim C10, witness: deleting the admin's id leaves the collection
unchanged. -/
theorem c10_witness :
    deleteUser [⟨"admin001", "admin", "h", "admin", "n", "e", "", "", "", "0"⟩]
        "admin001" =
      ([⟨"admin001", "admin", "h", "admin", "n", "e", "", "", "", "0"⟩], false) :=
  (c10_deleteUser [⟨"admin001", "admin", "h", "admin", "n", "e", "", "", "", "0"⟩]
    "admin001").1 ⟨"admin001", "admin", "h", "admin", "n", "e", "", "", "", "0"⟩
    (by decide) rfl
